import Mathlib

/-! Shallow embedding of the debt-management simulation engine
(`cashflow_calc.py`, class `BCDebtSimulation`, together with its caller
`app.py`).  Monetary amounts and rates are modelled as exact rationals;
the Python floats are translated literally (e.g. `0.15` becomes the
rational `0.15`).  Fixed-size loops become fuel-indexed recursion.
-/

namespace DebtSim

/-- Income types accepted by `calculate_tax`; the Python code switches on
the strings `'regular'`, `'capital_gains'`, `'eligible_dividends'`
(any other string falls through to the `regular` branch). -/
inductive IncomeType
  | regular
  | capital_gains
  | eligible_dividends
  deriving DecidableEq

/-- Debt types accepted by `run_simulation`; the Python code switches on
the strings `"Line of Credit"` and `"Mortgage"` (anything other than
`"Mortgage"` takes the Line of Credit branch). -/
inductive DebtType
  | lineOfCredit
  | mortgage
  deriving DecidableEq

/-- A tax bracket `(lower, upper, rate)`.  The Python table writes the
unbounded final bracket with `float('inf')` as upper bound; here the
upper bound is `none` for that bracket. -/
abbrev TaxBracket : Type := ℚ × Option ℚ × ℚ

/-- Federal brackets for 2024 (`self.federal_brackets`). -/
def federal_brackets : List TaxBracket :=
  [(0, some 55867, 0.15),
   (55867, some 111733, 0.205),
   (111733, some 173205, 0.26),
   (173205, some 246752, 0.29),
   (246752, none, 0.33)]

/-- BC provincial brackets for 2024 (`self.bc_brackets`). -/
def bc_brackets : List TaxBracket :=
  [(0, some 45654, 0.0506),
   (45654, some 91308, 0.077),
   (91308, some 104835, 0.105),
   (104835, some 127299, 0.1229),
   (127299, some 172602, 0.147),
   (172602, some 240716, 0.168),
   (240716, none, 0.205)]

/-- The field `self.bc_dividend_credit_rate`. -/
def bc_dividend_credit_rate : ℚ := 0.12

/-- The field `self.federal_dividend_credit_rate`. -/
def federal_dividend_credit_rate : ℚ := 0.150198

/-- The method `_calculate_bracket_tax(income, brackets)`: walk the brackets,
taxing `min(remaining_income, upper - lower)` in each at its rate,
stopping once the remaining income is exhausted.  `min remaining
remaining` plays the role of `min(remaining, inf - lower)` for the
unbounded final bracket. -/
def calculate_bracket_tax : ℚ → List TaxBracket → ℚ
  | _, [] => 0
  | remaining_income, (lower, upper, rate) :: rest =>
    if remaining_income ≤ 0 then 0
    else
      let width := match upper with
        | none => remaining_income
        | some u => u - lower
      let taxable_in_bracket := min remaining_income width
      taxable_in_bracket * rate +
        calculate_bracket_tax (remaining_income - taxable_in_bracket) rest

/-- The method `calculate_tax(income, income_type)`: income-type adjustment
(capital-gains inclusion, dividend gross-up), two stacked bracket
schedules, dividend tax credit, clamped at zero. -/
def calculate_tax (income : ℚ) (income_type : IncomeType) : ℚ :=
  if income ≤ 0 then 0
  else
    let taxable_income :=
      match income_type with
      | .capital_gains => income * 0.5
      | .eligible_dividends => income * 1.38
      | .regular => income
    let federal_tax := calculate_bracket_tax taxable_income federal_brackets
    let provincial_tax := calculate_bracket_tax taxable_income bc_brackets
    let total_tax := federal_tax + provincial_tax
    let total_tax :=
      if income_type = IncomeType.eligible_dividends then
        total_tax - (taxable_income * federal_dividend_credit_rate +
                     taxable_income * bc_dividend_credit_rate)
      else total_tax
    max 0 total_tax

/-- The body of `calculate_gross_income`'s `for _ in range(10)` loop,
with the remaining iteration count made explicit as fuel. -/
def gross_income_loop (net_income_needed : ℚ) (income_type : IncomeType) :
    ℕ → ℚ → ℚ
  | 0, gross_income => gross_income
  | fuel + 1, gross_income =>
    let tax := calculate_tax gross_income income_type
    let net_income := gross_income - tax
    let difference := net_income_needed - net_income
    if |difference| < 0.01 then gross_income
    else gross_income_loop net_income_needed income_type fuel
      (gross_income + difference)

/-- The method `calculate_gross_income(net_income_needed, income_type)`: initial
guess `net / 0.7`, then at most 10 additive corrections. -/
def calculate_gross_income (net_income_needed : ℚ)
    (income_type : IncomeType := .regular) : ℚ :=
  gross_income_loop net_income_needed income_type 10 (net_income_needed / 0.7)

/-- The method `calculate_mortgage_payment(principal, annual_rate, years)`:
standard annuity formula for the level monthly payment, with the
zero-rate and degenerate-input branches of the source. -/
def calculate_mortgage_payment (principal annual_rate : ℚ) (years : ℤ) : ℚ :=
  if principal ≤ 0 ∨ years ≤ 0 then 0
  else
    let monthly_rate := annual_rate / 12
    let num_payments := years * 12
    if monthly_rate = 0 then principal / (num_payments : ℚ)
    else principal * (monthly_rate * (1 + monthly_rate) ^ num_payments.toNat) /
      ((1 + monthly_rate) ^ num_payments.toNat - 1)

/-- The method `calculate_mortgage_principal_payment(principal, payment, annual_rate)`:
principal portion of one monthly payment. -/
def calculate_mortgage_principal_payment (principal payment annual_rate : ℚ) : ℚ :=
  if principal ≤ 0 ∨ payment ≤ 0 then 0
  else
    let monthly_rate := annual_rate / 12
    let interest_payment := principal * monthly_rate
    payment - interest_payment

/-- One month of the mortgage inner loop of `run_simulation` (lines
206-217): on a positive remaining balance, pay
`min(remaining, payment - interest)` of principal; the `break` on a
non-positive balance makes the step the identity there. -/
def mortgage_month_step (annual_rate monthly_payment remaining_debt : ℚ) : ℚ :=
  if remaining_debt ≤ 0 then remaining_debt
  else remaining_debt - min remaining_debt
    (calculate_mortgage_principal_payment remaining_debt monthly_payment annual_rate)

/-- The `for month in range(12)` loop of `run_simulation`, with the month
count as fuel; returns the accumulated
`(annual_interest, principal_payment, remaining_debt)`. -/
def mortgage_year (annual_rate monthly_payment : ℚ) : ℕ → ℚ → ℚ × ℚ × ℚ
  | 0, remaining_debt => (0, 0, remaining_debt)
  | months + 1, remaining_debt =>
    if remaining_debt ≤ 0 then (0, 0, remaining_debt)
    else
      let month_interest := remaining_debt * (annual_rate / 12)
      let month_principal := min remaining_debt
        (calculate_mortgage_principal_payment remaining_debt monthly_payment annual_rate)
      let rest := mortgage_year annual_rate monthly_payment months
        (remaining_debt - month_principal)
      (month_interest + rest.1, month_principal + rest.2.1, rest.2.2)

/-- The keyword parameters of `run_simulation`.  Counts are naturals,
`amortization_years` is an integer as in
`calculate_mortgage_payment`. -/
structure SimParams where
  initial_debt : ℚ
  savings : ℚ
  tfsa_amount : ℚ
  interest_rate : ℚ
  min_return : ℚ
  max_return : ℚ
  monthly_income_needed : ℚ
  num_simulations : ℕ
  max_years : ℕ
  inflation_rate : ℚ
  dividend_yield : ℚ
  debt_type : DebtType
  amortization_years : ℤ
  annual_tfsa_contribution : ℚ

/-- The per-trial mutable variables of `run_simulation`. -/
structure TrialState where
  current_debt : ℚ
  tfsa_savings : ℚ
  taxable_savings : ℚ
  taxable_cost_basis : ℚ
  years : ℕ
  total_tax_paid : ℚ
  yearly_income_needed : ℚ

/-- One entry of `annual_data` (the dict appended at lines 239-253). -/
structure AnnualRecord where
  year : ℕ
  debt : ℚ
  tfsa_savings : ℚ
  taxable_savings : ℚ
  total_tax_paid : ℚ
  annual_return : ℚ
  gross_income_needed : ℚ
  personal_tax : ℚ
  investment_tax : ℚ
  total_expenses : ℚ
  principal_payment : ℚ
  interest_payment : ℚ
  total_payment : ℚ

/-- One entry of `all_simulations` (the dict appended at lines 262-269). -/
structure TrialResult where
  years : ℕ
  final_debt : ℚ
  tfsa_savings : ℚ
  taxable_savings : ℚ
  total_tax_paid : ℚ
  annual_data : List AnnualRecord

/-- Debt service for one simulated year (lines 196-224), returning
`(debt after scheduled payments, annual_interest, principal_payment,
total_payment)`.  Mortgages replay 12 monthly steps against the current
balance; a Line of Credit only accrues `balance * rate` of interest. -/
def debt_service (p : SimParams) (monthly_mortgage_payment current_debt : ℚ) :
    ℚ × ℚ × ℚ × ℚ :=
  match p.debt_type with
  | .mortgage =>
    let m := mortgage_year p.interest_rate monthly_mortgage_payment 12 current_debt
    (m.2.2, m.1, m.2.1, monthly_mortgage_payment * 12)
  | .lineOfCredit =>
    let annual_interest := current_debt * p.interest_rate
    (current_debt, annual_interest, 0, annual_interest)

/-- The body of `run_simulation`'s `while` loop (lines 162-255): one
simulated year, producing the new trial state and the annual record.
`annual_return` is the uniform draw of line 168, supplied externally. -/
def year_step (p : SimParams) (monthly_mortgage_payment annual_return : ℚ)
    (s : TrialState) : TrialState × AnnualRecord :=
  let yearly_income_needed :=
    if 0 < s.years then s.yearly_income_needed * (1 + p.inflation_rate)
    else s.yearly_income_needed
  let tfsa_return := s.tfsa_savings * annual_return
  let tfsa_savings := s.tfsa_savings + tfsa_return + p.annual_tfsa_contribution
  let taxable_return := s.taxable_savings * annual_return
  let taxable_savings := s.taxable_savings + taxable_return
  let dividend_income := taxable_savings * p.dividend_yield
  let capital_gains := taxable_return - dividend_income
  let taxable_cost_basis := s.taxable_cost_basis + taxable_return
  let gross_income_needed := calculate_gross_income yearly_income_needed
  let personal_tax := gross_income_needed - yearly_income_needed
  let dividend_tax := calculate_tax dividend_income .eligible_dividends
  let capital_gains_tax := calculate_tax capital_gains .capital_gains
  let investment_tax := dividend_tax + capital_gains_tax
  let total_tax := personal_tax + investment_tax
  let total_tax_paid := s.total_tax_paid + total_tax
  let ds := debt_service p monthly_mortgage_payment s.current_debt
  let total_expenses := gross_income_needed + ds.2.2.2
  let total_available := tfsa_return + taxable_return
  let remaining_proceeds := total_available - total_expenses - investment_tax
  let extra_payment :=
    if p.debt_type = DebtType.lineOfCredit ∧ 0 < remaining_proceeds then
      min ds.1 remaining_proceeds
    else 0
  let current_debt := ds.1 - extra_payment
  let principal_payment :=
    if p.debt_type = DebtType.lineOfCredit ∧ 0 < remaining_proceeds then
      extra_payment
    else ds.2.2.1
  ({ current_debt := current_debt, tfsa_savings := tfsa_savings,
     taxable_savings := taxable_savings, taxable_cost_basis := taxable_cost_basis,
     years := s.years + 1, total_tax_paid := total_tax_paid,
     yearly_income_needed := yearly_income_needed },
   { year := s.years + 1, debt := current_debt, tfsa_savings := tfsa_savings,
     taxable_savings := taxable_savings, total_tax_paid := total_tax_paid,
     annual_return := annual_return, gross_income_needed := gross_income_needed,
     personal_tax := personal_tax, investment_tax := investment_tax,
     total_expenses := total_expenses, principal_payment := principal_payment,
     interest_payment := ds.2.1, total_payment := ds.2.2.2 })

/-- The per-trial `while current_debt > 0 and years <
max_years` loop.  The fuel equals `max_years - years` (the state's year
counter starts at 0 and each `year_step` adds 1, so `fuel > 0` is the
`years < max_years` test).  After each year the loop breaks early when
both savings balances are non-positive (lines 257-259). -/
def run_years (p : SimParams) (monthly_mortgage_payment : ℚ) (returns : ℕ → ℚ) :
    ℕ → TrialState → TrialState × List AnnualRecord
  | 0, s => (s, [])
  | fuel + 1, s =>
    if 0 < s.current_debt then
      let step := year_step p monthly_mortgage_payment (returns s.years) s
      if step.1.tfsa_savings ≤ 0 ∧ step.1.taxable_savings ≤ 0 then (step.1, [step.2])
      else
        let rest := run_years p monthly_mortgage_payment returns fuel step.1
        (rest.1, step.2 :: rest.2)
    else (s, [])

/-- The per-trial initialisation of `run_simulation` (lines 146-153). -/
def initial_state (p : SimParams) : TrialState :=
  { current_debt := p.initial_debt,
    tfsa_savings := min p.tfsa_amount p.savings,
    taxable_savings := max 0 (p.savings - p.tfsa_amount),
    taxable_cost_basis := max 0 (p.savings - p.tfsa_amount),
    years := 0,
    total_tax_paid := 0,
    yearly_income_needed := p.monthly_income_needed * 12 }

/-- The fixed monthly mortgage payment computed once per trial from the
original principal (lines 156-160); 0 for a Line of Credit. -/
def trial_monthly_mortgage_payment (p : SimParams) : ℚ :=
  if p.debt_type = DebtType.mortgage then
    calculate_mortgage_payment p.initial_debt p.interest_rate p.amortization_years
  else 0

/-- One complete trial of `run_simulation`, with the trial's stream of
annual uniform draws supplied as `returns`. -/
def run_trial (p : SimParams) (returns : ℕ → ℚ) : TrialResult :=
  let out := run_years p (trial_monthly_mortgage_payment p) returns
    p.max_years (initial_state p)
  { years := out.1.years, final_debt := out.1.current_debt,
    tfsa_savings := out.1.tfsa_savings, taxable_savings := out.1.taxable_savings,
    total_tax_paid := out.1.total_tax_paid, annual_data := out.2 }

/-- The method `run_simulation(**params)`: `num_simulations` independent trials,
appended to `all_simulations` in trial order.  `returns sim` is trial
`sim`'s stream of annual draws. -/
def run_simulation (p : SimParams) (returns : ℕ → ℕ → ℚ) : List TrialResult :=
  (List.range p.num_simulations).foldl
    (fun all_simulations sim => all_simulations ++ [run_trial p (returns sim)]) []

/-- One entry of a TFSA-growth trial's `annual_data`. -/
structure TfsaRecord where
  year : ℕ
  tfsa_balance : ℚ
  annual_return : ℚ

/-- Terminal summary of one TFSA-growth trial. -/
structure TfsaTrialResult where
  tfsa_balance : ℚ
  annual_data : List TfsaRecord

/-- Modelled from the spec: the body of `run_tfsa_simulation`, which is
called from `app.py` (line 286) but whose definition is not among the
provided files.  Per spec section 4.2, each year applies the drawn
return plus the annual contribution to the tax-sheltered balance,
records a single-balance annual record, and the loop runs for exactly
`max_years` years with no early termination. -/
def run_tfsa_years (annual_tfsa_contribution : ℚ) (returns : ℕ → ℚ) :
    ℕ → ℕ → ℚ → ℚ × List TfsaRecord
  | _, 0, tfsa_balance => (tfsa_balance, [])
  | year, fuel + 1, tfsa_balance =>
    let annual_return := returns year
    let new_balance := tfsa_balance + tfsa_balance * annual_return +
      annual_tfsa_contribution
    let rest := run_tfsa_years annual_tfsa_contribution returns (year + 1) fuel
      new_balance
    (rest.1,
     { year := year + 1, tfsa_balance := new_balance,
       annual_return := annual_return } :: rest.2)

/-- Modelled from the spec: one trial of `run_tfsa_simulation`. -/
def run_tfsa_trial (tfsa_savings annual_tfsa_contribution : ℚ) (max_years : ℕ)
    (returns : ℕ → ℚ) : TfsaTrialResult :=
  let out := run_tfsa_years annual_tfsa_contribution returns 0 max_years tfsa_savings
  { tfsa_balance := out.1, annual_data := out.2 }

/-- Modelled from the spec: `run_tfsa_simulation`, one result per trial
in trial order. -/
def run_tfsa_simulation (tfsa_savings annual_tfsa_contribution : ℚ)
    (num_simulations max_years : ℕ) (returns : ℕ → ℕ → ℚ) : List TfsaTrialResult :=
  (List.range num_simulations).foldl
    (fun acc sim => acc ++
      [run_tfsa_trial tfsa_savings annual_tfsa_contribution max_years (returns sim)]) []

/-- The one-year accumulation step of the TFSA balance, used to state
the TFSA trial's closed form. -/
def tfsa_fold_step (annual_tfsa_contribution : ℚ) (returns : ℕ → ℚ)
    (tfsa_balance : ℚ) (year : ℕ) : ℚ :=
  tfsa_balance + tfsa_balance * returns year + annual_tfsa_contribution

/-- Well-formedness of one bracket for the Lipschitz lemmas: rate in
`[0, R]` and non-negative width. -/
def bracketOK (R : ℚ) (bk : TaxBracket) : Prop :=
  0 ≤ bk.2.2 ∧ bk.2.2 ≤ R ∧
    match bk.2.1 with
    | none => True
    | some u => bk.1 ≤ u

/-- Rate lower bound and non-negative width, for the lower Lipschitz
lemma. -/
def bracketGE (r : ℚ) (bk : TaxBracket) : Prop :=
  r ≤ bk.2.2 ∧
    match bk.2.1 with
    | none => True
    | some u => bk.1 ≤ u

/-- The bracket list taxes all income above its lowest bound: its final
entry is unbounded. -/
def endsOpen : List TaxBracket → Prop
  | [] => False
  | [bk] => bk.2.1 = none
  | _ :: bk :: rest => endsOpen (bk :: rest)

/-- The federal schedule above its first bracket. -/
def federal_tail : List TaxBracket :=
  [(55867, some 111733, 0.205),
   (111733, some 173205, 0.26),
   (173205, some 246752, 0.29),
   (246752, none, 0.33)]

/-- The provincial schedule above its first bracket. -/
def bc_tail : List TaxBracket :=
  [(45654, some 91308, 0.077),
   (91308, some 104835, 0.105),
   (104835, some 127299, 0.1229),
   (127299, some 172602, 0.147),
   (172602, some 240716, 0.168),
   (240716, none, 0.205)]

/-- A small concrete parameter set used by witnesses and the year-cap
counterexample: one trial, a one-year cap, no savings, no income need,
a zero-rate Line of Credit of 100. -/
def sample_params : SimParams :=
  { initial_debt := 100, savings := 0, tfsa_amount := 0, interest_rate := 0,
    min_return := 0, max_return := 0, monthly_income_needed := 0,
    num_simulations := 1, max_years := 1, inflation_rate := 0,
    dividend_yield := 0, debt_type := DebtType.lineOfCredit,
    amortization_years := 25, annual_tfsa_contribution := 0 }

/-! Section: Bracket-tax lemmas -/

theorem calculate_bracket_tax_nonpos (x : ℚ) (hx : x ≤ 0) :
    ∀ l : List TaxBracket, calculate_bracket_tax x l = 0 := by
  intro l
  cases l with
  | nil => rfl
  | cons bk rest =>
    obtain ⟨lo, hi, rate⟩ := bk
    simp [calculate_bracket_tax, hx]

theorem calculate_bracket_tax_cons_some (x lo u rate : ℚ) (rest : List TaxBracket)
    (hx : 0 < x) :
    calculate_bracket_tax x ((lo, some u, rate) :: rest) =
      min x (u - lo) * rate + calculate_bracket_tax (x - min x (u - lo)) rest := by
  simp only [calculate_bracket_tax, if_neg (not_le.mpr hx)]

theorem calculate_bracket_tax_cons_none (x lo rate : ℚ) (rest : List TaxBracket)
    (hx : 0 < x) :
    calculate_bracket_tax x ((lo, none, rate) :: rest) = x * rate := by
  simp only [calculate_bracket_tax, if_neg (not_le.mpr hx)]
  rw [min_self, sub_self, calculate_bracket_tax_nonpos 0 (le_refl 0)]
  ring

theorem calculate_bracket_tax_nonneg {R : ℚ} :
    ∀ l : List TaxBracket, (∀ bk ∈ l, bracketOK R bk) → ∀ x : ℚ,
      0 ≤ calculate_bracket_tax x l := by
  intro l
  induction l with
  | nil => intro _ x; simp [calculate_bracket_tax]
  | cons bk rest ih =>
    intro hok x
    obtain ⟨lo, hi, rate⟩ := bk
    have hr0 : (0:ℚ) ≤ rate := (hok _ (List.mem_cons_self _ _)).1
    have hrest := fun b hb => hok b (List.mem_cons_of_mem _ hb)
    by_cases hx : x ≤ 0
    · rw [calculate_bracket_tax_nonpos x hx]
    · push_neg at hx
      cases hi with
      | none =>
        rw [calculate_bracket_tax_cons_none x lo rate rest hx]
        positivity
      | some u =>
        have hw : lo ≤ u := (hok _ (List.mem_cons_self _ _)).2.2
        rw [calculate_bracket_tax_cons_some x lo u rate rest hx]
        have htax : 0 ≤ min x (u - lo) := le_min hx.le (by linarith)
        have := ih hrest (x - min x (u - lo))
        positivity

theorem bracket_tax_mono_lipschitz {R : ℚ} (hR : 0 ≤ R) :
    ∀ l : List TaxBracket, (∀ bk ∈ l, bracketOK R bk) → ∀ a b : ℚ, a ≤ b →
      calculate_bracket_tax a l ≤ calculate_bracket_tax b l ∧
      calculate_bracket_tax b l - calculate_bracket_tax a l ≤ R * (b - a) := by
  intro l
  induction l with
  | nil =>
    intro _ a b hab
    simp only [calculate_bracket_tax]
    constructor
    · exact le_refl 0
    · nlinarith
  | cons bk rest ih =>
    intro hok a b hab
    obtain ⟨lo, hi, rate⟩ := bk
    have hr0 : (0:ℚ) ≤ rate := (hok _ (List.mem_cons_self _ _)).1
    have hrR : rate ≤ R := (hok _ (List.mem_cons_self _ _)).2.1
    have hrest := fun bk hb => hok bk (List.mem_cons_of_mem _ hb)
    by_cases hb : b ≤ 0
    · have ha : a ≤ 0 := hab.trans hb
      rw [calculate_bracket_tax_nonpos a ha, calculate_bracket_tax_nonpos b hb]
      constructor
      · exact le_refl 0
      · nlinarith
    · push_neg at hb
      cases hi with
      | none =>
        rw [calculate_bracket_tax_cons_none b lo rate rest hb]
        by_cases ha : a ≤ 0
        · rw [calculate_bracket_tax_nonpos a ha]
          constructor
          · positivity
          · nlinarith
        · push_neg at ha
          rw [calculate_bracket_tax_cons_none a lo rate rest ha]
          constructor
          · nlinarith
          · nlinarith
      | some u =>
        have hwu : lo ≤ u := (hok _ (List.mem_cons_self _ _)).2.2
        set w := u - lo with hwdef
        have hw0 : (0:ℚ) ≤ w := by rw [hwdef]; linarith
        rw [calculate_bracket_tax_cons_some b lo u rate rest hb, ← hwdef]
        have htb0 : 0 ≤ min b w := le_min hb.le hw0
        have htbb : min b w ≤ b := min_le_left _ _
        by_cases ha : a ≤ 0
        · -- left value is 0; bound the right value by R * b ≤ R * (b - a)
          rw [calculate_bracket_tax_nonpos a ha]
          have h1 := ih hrest 0 (b - min b w) (by linarith)
          rw [calculate_bracket_tax_nonpos 0 (le_refl 0)] at h1
          have h4 : 0 ≤ calculate_bracket_tax (b - min b w) rest :=
            calculate_bracket_tax_nonneg rest hrest _
          constructor
          · nlinarith
          · nlinarith [h1.2]
        · push_neg at ha
          rw [calculate_bracket_tax_cons_some a lo u rate rest ha, ← hwdef]
          have hta : min a w ≤ min b w := min_le_min hab (le_refl w)
          have h5 : min b w - min a w ≤ b - a := by
            rcases le_total a w with h | h <;> rcases le_total b w with h2 | h2 <;>
              simp [min_eq_left, min_eq_right, h, h2] <;> linarith
          have h6 : a - min a w ≤ b - min b w := by linarith
          have h7 := ih hrest (a - min a w) (b - min b w) h6
          constructor
          · nlinarith [h7.1]
          · nlinarith [h7.2]

theorem bracket_tax_lower {r : ℚ} :
    ∀ l : List TaxBracket, endsOpen l → (∀ bk ∈ l, bracketGE r bk) →
      ∀ a b : ℚ, 0 ≤ a → a ≤ b →
        r * (b - a) ≤ calculate_bracket_tax b l - calculate_bracket_tax a l := by
  intro l
  induction l with
  | nil => intro h; exact absurd h (by simp [endsOpen])
  | cons bk rest ih =>
    intro hopen hge a b ha hab
    obtain ⟨lo, hi, rate⟩ := bk
    have hrr : r ≤ rate := (hge _ (List.mem_cons_self _ _)).1
    have hrest := fun bk hb => hge bk (List.mem_cons_of_mem _ hb)
    by_cases hb : b ≤ 0
    · have ha0 : a = 0 := le_antisymm (hab.trans hb) ha
      have hb0 : b = 0 := le_antisymm hb (ha0 ▸ hab)
      subst ha0; subst hb0
      simp
    · push_neg at hb
      -- the head bracket is either unbounded (and absorbs everything)
      -- or bounded, with the rest of the list still ending open
      cases hi with
      | none =>
        rw [calculate_bracket_tax_cons_none b lo rate rest hb]
        rcases eq_or_lt_of_le ha with ha0 | ha0
        · rw [← ha0, calculate_bracket_tax_nonpos 0 (le_refl 0)]
          nlinarith
        · rw [calculate_bracket_tax_cons_none a lo rate rest ha0]
          nlinarith
      | some u =>
        have hopen' : endsOpen rest := by
          cases rest with
          | nil => exact absurd hopen (by simp [endsOpen])
          | cons bk2 rest2 => exact hopen
        have hwu : lo ≤ u := (hge _ (List.mem_cons_self _ _)).2
        set w := u - lo with hwdef
        have hw0 : (0:ℚ) ≤ w := by rw [hwdef]; linarith
        rw [calculate_bracket_tax_cons_some b lo u rate rest hb, ← hwdef]
        have htb0 : 0 ≤ min b w := le_min hb.le hw0
        have htbb : min b w ≤ b := min_le_left _ _
        rcases eq_or_lt_of_le ha with ha0 | ha0
        · rw [← ha0, calculate_bracket_tax_nonpos 0 (le_refl 0)]
          have h1 := ih hopen' hrest 0 (b - min b w) (le_refl 0) (by linarith)
          rw [calculate_bracket_tax_nonpos 0 (le_refl 0)] at h1
          nlinarith
        · rw [calculate_bracket_tax_cons_some a lo u rate rest ha0, ← hwdef]
          have hta : min a w ≤ min b w := min_le_min hab (le_refl w)
          have h5 : min b w - min a w ≤ b - a := by
            rcases le_total a w with h | h <;> rcases le_total b w with h2 | h2 <;>
              simp [min_eq_left, min_eq_right, h, h2] <;> linarith
          have hta0 : 0 ≤ a - min a w := by
            have := min_le_left a w; linarith
          have h6 : a - min a w ≤ b - min b w := by linarith
          have h7 := ih hopen' hrest (a - min a w) (b - min b w) hta0 h6
          nlinarith

theorem bracket_tax_peel (u rate : ℚ) (rest : List TaxBracket) (x : ℚ)
    (hu : 0 < u) (hx : u ≤ x) :
    calculate_bracket_tax x ((0, some u, rate) :: rest) =
      u * rate + calculate_bracket_tax (x - u) rest := by
  have hx0 : 0 < x := lt_of_lt_of_le hu hx
  rw [calculate_bracket_tax_cons_some x 0 u rate rest hx0]
  rw [sub_zero, min_eq_right hx]

/-! Section: The concrete 2024 schedules -/

theorem federal_brackets_eq :
    federal_brackets = (0, some 55867, 0.15) :: federal_tail := rfl

theorem bc_brackets_eq :
    bc_brackets = (0, some 45654, 0.0506) :: bc_tail := rfl

theorem bc_tail_eq :
    bc_tail = (45654, some 91308, 0.077) ::
      [(91308, some 104835, 0.105),
       (104835, some 127299, 0.1229),
       (127299, some 172602, 0.147),
       (172602, some 240716, 0.168),
       (240716, none, 0.205)] := rfl

theorem federal_ok : ∀ bk ∈ federal_brackets, bracketOK 0.33 bk := by
  intro bk h
  simp only [federal_brackets, List.mem_cons, List.not_mem_nil, or_false] at h
  rcases h with rfl | rfl | rfl | rfl | rfl <;>
    exact ⟨by norm_num, by norm_num, by norm_num⟩

theorem bc_ok : ∀ bk ∈ bc_brackets, bracketOK 0.205 bk := by
  intro bk h
  simp only [bc_brackets, List.mem_cons, List.not_mem_nil, or_false] at h
  rcases h with rfl | rfl | rfl | rfl | rfl | rfl | rfl <;>
    exact ⟨by norm_num, by norm_num, by norm_num⟩

theorem federal_tail_ge : ∀ bk ∈ federal_tail, bracketGE 0.205 bk := by
  intro bk h
  simp only [federal_tail, List.mem_cons, List.not_mem_nil, or_false] at h
  rcases h with rfl | rfl | rfl | rfl <;> exact ⟨by norm_num, by norm_num⟩

theorem bc_tail_ge : ∀ bk ∈ bc_tail, bracketGE 0.077 bk := by
  intro bk h
  simp only [bc_tail, List.mem_cons, List.not_mem_nil, or_false] at h
  rcases h with rfl | rfl | rfl | rfl | rfl | rfl <;>
    exact ⟨by norm_num, by norm_num⟩

theorem federal_tail_endsOpen : endsOpen federal_tail := by
  simp [federal_tail, endsOpen]

theorem bc_tail_endsOpen : endsOpen bc_tail := by
  simp [bc_tail, endsOpen]

/-! Section: calculate_tax: sign, evaluation, monotonicity -/

theorem regular_ne_elig :
    (IncomeType.regular = IncomeType.eligible_dividends) = False := by simp

theorem capital_gains_ne_elig :
    (IncomeType.capital_gains = IncomeType.eligible_dividends) = False := by simp

theorem tax_nonneg (income : ℚ) (income_type : IncomeType) :
    0 ≤ calculate_tax income income_type := by
  simp only [calculate_tax]
  split
  · exact le_refl 0
  · exact le_max_left _ _

theorem tax_of_nonpos (income : ℚ) (h : income ≤ 0) (income_type : IncomeType) :
    calculate_tax income income_type = 0 := by
  simp [calculate_tax, h]

theorem tax_reg_eval (x : ℚ) (h : 0 ≤ x) :
    calculate_tax x .regular =
      calculate_bracket_tax x federal_brackets + calculate_bracket_tax x bc_brackets := by
  rcases eq_or_lt_of_le h with h0 | h0
  · rw [← h0, tax_of_nonpos 0 (le_refl 0),
      calculate_bracket_tax_nonpos 0 (le_refl 0) federal_brackets,
      calculate_bracket_tax_nonpos 0 (le_refl 0) bc_brackets]
    norm_num
  · simp only [calculate_tax, if_neg (not_le.mpr h0), regular_ne_elig, if_false]
    exact max_eq_right (add_nonneg
      (calculate_bracket_tax_nonneg federal_brackets federal_ok _)
      (calculate_bracket_tax_nonneg bc_brackets bc_ok _))

theorem tax_capg_eval (x : ℚ) (h : 0 < x) :
    calculate_tax x .capital_gains =
      calculate_bracket_tax (x * 0.5) federal_brackets +
      calculate_bracket_tax (x * 0.5) bc_brackets := by
  simp only [calculate_tax, if_neg (not_le.mpr h), capital_gains_ne_elig, if_false]
  exact max_eq_right (add_nonneg
    (calculate_bracket_tax_nonneg federal_brackets federal_ok _)
    (calculate_bracket_tax_nonneg bc_brackets bc_ok _))

theorem tax_div_eval (x : ℚ) (h : 0 < x) :
    calculate_tax x .eligible_dividends =
      max 0 (calculate_bracket_tax (x * 1.38) federal_brackets +
        calculate_bracket_tax (x * 1.38) bc_brackets -
        (x * 1.38 * federal_dividend_credit_rate +
         x * 1.38 * bc_dividend_credit_rate)) := by
  simp [calculate_tax, if_neg (not_le.mpr h)]

theorem tax_reg_bounds {a b : ℚ} (h0 : 0 ≤ a) (hab : a ≤ b) :
    calculate_tax a .regular ≤ calculate_tax b .regular ∧
    calculate_tax b .regular - calculate_tax a .regular ≤ 0.535 * (b - a) := by
  rw [tax_reg_eval a h0, tax_reg_eval b (h0.trans hab)]
  have hf := bracket_tax_mono_lipschitz (by norm_num) federal_brackets federal_ok a b hab
  have hp := bracket_tax_mono_lipschitz (by norm_num) bc_brackets bc_ok a b hab
  constructor
  · linarith [hf.1, hp.1]
  · linarith [hf.2, hp.2]

theorem fed_eval_low (t : ℚ) (h0 : 0 ≤ t) (h1 : t ≤ 55867) :
    calculate_bracket_tax t federal_brackets = t * 0.15 := by
  rcases eq_or_lt_of_le h0 with h | h
  · rw [← h, calculate_bracket_tax_nonpos 0 (le_refl 0)]; ring
  · rw [federal_brackets_eq,
      calculate_bracket_tax_cons_some t 0 55867 0.15 federal_tail h]
    rw [sub_zero, min_eq_left h1, sub_self,
      calculate_bracket_tax_nonpos 0 (le_refl 0)]
    ring

theorem bc_tail_eval_low (s : ℚ) (h0 : 0 ≤ s) (h1 : s ≤ 45654) :
    calculate_bracket_tax s bc_tail = s * 0.077 := by
  rcases eq_or_lt_of_le h0 with h | h
  · rw [← h, calculate_bracket_tax_nonpos 0 (le_refl 0)]; ring
  · rw [bc_tail_eq, calculate_bracket_tax_cons_some s 45654 91308 0.077 _ h]
    have hw : s ≤ 91308 - 45654 := by linarith
    rw [min_eq_left hw, sub_self, calculate_bracket_tax_nonpos 0 (le_refl 0)]
    ring

theorem bc_eval_low (t : ℚ) (h0 : 0 ≤ t) (h1 : t ≤ 55867) :
    calculate_bracket_tax t bc_brackets =
      min t 45654 * 0.0506 + (t - min t 45654) * 0.077 := by
  rcases eq_or_lt_of_le h0 with h | h
  · rw [← h, calculate_bracket_tax_nonpos 0 (le_refl 0)]
    norm_num
  · rw [bc_brackets_eq, calculate_bracket_tax_cons_some t 0 45654 0.0506 bc_tail h]
    rw [sub_zero]
    have hs0 : 0 ≤ t - min t 45654 := by
      have := min_le_left t (45654 : ℚ); linarith
    have hs1 : t - min t 45654 ≤ 45654 := by
      rcases le_total t 45654 with h2 | h2
      · rw [min_eq_left h2]; linarith
      · rw [min_eq_right h2]; linarith
    rw [bc_tail_eval_low _ hs0 hs1]

/-- The pre-clamp dividend tax is non-positive while the grossed-up
taxable amount is still inside the combined bottom brackets: there the
marginal rates (15% + 5.06% or 7.7%) are below the combined dividend
credit rate of 27.0198%. -/
theorem div_credit_dominates_low (t : ℚ) (h0 : 0 ≤ t) (h1 : t ≤ 55867) :
    calculate_bracket_tax t federal_brackets + calculate_bracket_tax t bc_brackets -
      (t * federal_dividend_credit_rate + t * bc_dividend_credit_rate) ≤ 0 := by
  rw [fed_eval_low t h0 h1, bc_eval_low t h0 h1]
  have hm0 : 0 ≤ min t 45654 := le_min h0 (by norm_num)
  have hm1 : min t 45654 ≤ t := min_le_left _ _
  rw [federal_dividend_credit_rate, bc_dividend_credit_rate]
  nlinarith

/-- Above the first federal bracket the combined marginal rate (at
least 20.5% + 7.7%) exceeds the combined dividend credit rate, so the
pre-clamp dividend tax is non-decreasing there. -/
theorem div_preclamp_mono_high (t u : ℚ) (ht : 55867 ≤ t) (htu : t ≤ u) :
    calculate_bracket_tax t federal_brackets + calculate_bracket_tax t bc_brackets -
      (t * federal_dividend_credit_rate + t * bc_dividend_credit_rate) ≤
    calculate_bracket_tax u federal_brackets + calculate_bracket_tax u bc_brackets -
      (u * federal_dividend_credit_rate + u * bc_dividend_credit_rate) := by
  have hu : (55867:ℚ) ≤ u := ht.trans htu
  have hfed_t : calculate_bracket_tax t federal_brackets =
      55867 * 0.15 + calculate_bracket_tax (t - 55867) federal_tail := by
    rw [federal_brackets_eq]
    exact bracket_tax_peel 55867 0.15 federal_tail t (by norm_num) ht
  have hfed_u : calculate_bracket_tax u federal_brackets =
      55867 * 0.15 + calculate_bracket_tax (u - 55867) federal_tail := by
    rw [federal_brackets_eq]
    exact bracket_tax_peel 55867 0.15 federal_tail u (by norm_num) hu
  have hbc_t : calculate_bracket_tax t bc_brackets =
      45654 * 0.0506 + calculate_bracket_tax (t - 45654) bc_tail := by
    rw [bc_brackets_eq]
    exact bracket_tax_peel 45654 0.0506 bc_tail t (by norm_num) (by linarith)
  have hbc_u : calculate_bracket_tax u bc_brackets =
      45654 * 0.0506 + calculate_bracket_tax (u - 45654) bc_tail := by
    rw [bc_brackets_eq]
    exact bracket_tax_peel 45654 0.0506 bc_tail u (by norm_num) (by linarith)
  have hfed := bracket_tax_lower federal_tail federal_tail_endsOpen federal_tail_ge
    (t - 55867) (u - 55867) (by linarith) (by linarith)
  have hbc := bracket_tax_lower bc_tail bc_tail_endsOpen bc_tail_ge
    (t - 45654) (u - 45654) (by linarith) (by linarith)
  rw [hfed_t, hfed_u, hbc_t, hbc_u, federal_dividend_credit_rate,
    bc_dividend_credit_rate]
  nlinarith

/-- C2: the function calculate_tax is monotone non-decreasing in income for
each fixed income type, including the eligible-dividends case where the
dividend tax credit is subtracted before the clamp to zero. -/
theorem calculate_tax_monotone (income_type : IncomeType) (income1 income2 : ℚ)
    (h : income1 < income2) :
    calculate_tax income1 income_type ≤ calculate_tax income2 income_type := by
  by_cases h1 : income1 ≤ 0
  · rw [tax_of_nonpos income1 h1]
    exact tax_nonneg income2 income_type
  · push_neg at h1
    have h2 : (0:ℚ) < income2 := h1.trans h
    cases income_type with
    | regular => exact (tax_reg_bounds h1.le h.le).1
    | capital_gains =>
      rw [tax_capg_eval income1 h1, tax_capg_eval income2 h2]
      have hf := bracket_tax_mono_lipschitz (by norm_num) federal_brackets federal_ok
        (income1 * 0.5) (income2 * 0.5) (by linarith)
      have hp := bracket_tax_mono_lipschitz (by norm_num) bc_brackets bc_ok
        (income1 * 0.5) (income2 * 0.5) (by linarith)
      linarith [hf.1, hp.1]
    | eligible_dividends =>
      rw [tax_div_eval income1 h1, tax_div_eval income2 h2]
      rcases le_or_lt (income1 * 1.38) 55867 with hlow | hhigh
      · have hd := div_credit_dominates_low (income1 * 1.38) (by linarith) hlow
        rw [max_eq_left hd]
        exact le_max_left _ _
      · exact max_le_max (le_refl 0)
          (div_preclamp_mono_high (income1 * 1.38) (income2 * 1.38) hhigh.le
            (by linarith))

/-- Witness for C2 at concrete incomes. -/
theorem calculate_tax_monotone_witness :
    calculate_tax 100 .eligible_dividends ≤ calculate_tax 200 .eligible_dividends :=
  calculate_tax_monotone .eligible_dividends 100 200 (by norm_num)

/-- C7: calculate_tax always returns a non-negative amount, and
returns exactly 0 on any non-positive income. -/
theorem calculate_tax_nonneg_and_zero (income : ℚ) (income_type : IncomeType) :
    0 ≤ calculate_tax income income_type ∧
    (income ≤ 0 → calculate_tax income income_type = 0) :=
  ⟨tax_nonneg income income_type, fun h => tax_of_nonpos income h income_type⟩

/-- Witness for C7 at a concrete negative income. -/
theorem calculate_tax_nonneg_and_zero_witness :
    0 ≤ calculate_tax (-5) .regular ∧ calculate_tax (-5) .regular = 0 :=
  ⟨(calculate_tax_nonneg_and_zero (-5) .regular).1,
   (calculate_tax_nonneg_and_zero (-5) .regular).2 (by norm_num)⟩

/-! Section: calculate_gross_income: contraction of the additive correction -/

/-- After-tax income moves with gross income at a slope between
`1 - 0.535` and `1` (the top combined marginal rate is
`0.33 + 0.205 = 0.535`). -/
theorem net_income_bounds {a b : ℚ} (h0 : 0 ≤ a) (hab : a ≤ b) :
    0.465 * (b - a) ≤ (b - calculate_tax b .regular) - (a - calculate_tax a .regular) ∧
    (b - calculate_tax b .regular) - (a - calculate_tax a .regular) ≤ b - a := by
  have h := tax_reg_bounds h0 hab
  constructor
  · linarith [h.2]
  · linarith [h.1]

/-- Adding the signed difference `target - net` to the guess multiplies
the residual by at most `0.535`. -/
theorem correction_contracts (target g : ℚ) (ht : 0 ≤ target) (hg : 0 ≤ g) :
    |target - ((g + (target - (g - calculate_tax g .regular))) -
        calculate_tax (g + (target - (g - calculate_tax g .regular))) .regular)| ≤
      0.535 * |target - (g - calculate_tax g .regular)| := by
  set d := target - (g - calculate_tax g .regular) with hd
  have hgd : g + d = target + calculate_tax g .regular := by rw [hd]; ring
  have hgd0 : 0 ≤ g + d := by
    rw [hgd]; exact add_nonneg ht (tax_nonneg g .regular)
  rcases le_or_lt 0 d with hdpos | hdneg
  · have hb := net_income_bounds hg (by linarith : g ≤ g + d)
    have e1 : (g + d) - g = d := by ring
    rw [e1] at hb
    have habs : |d| = d := abs_of_nonneg hdpos
    rw [habs, abs_le]
    constructor
    · nlinarith [hb.2]
    · nlinarith [hb.1]
  · have hb := net_income_bounds hgd0 (by linarith : g + d ≤ g)
    have e1 : g - (g + d) = -d := by ring
    rw [e1] at hb
    have habs : |d| = -d := abs_of_neg hdneg
    rw [habs, abs_le]
    constructor
    · nlinarith [hb.2]
    · nlinarith [hb.1]

/-- The correction loop either stops below the 0.01 tolerance or
shrinks the initial residual by a factor `0.535` per executed
correction. -/
theorem gross_income_loop_bound (target : ℚ) (ht : 0 ≤ target) :
    ∀ (n : ℕ) (g : ℚ), 0 ≤ g →
      |(gross_income_loop target .regular n g -
          calculate_tax (gross_income_loop target .regular n g) .regular) - target| ≤
        max 0.01 (0.535 ^ n * |target - (g - calculate_tax g .regular)|) := by
  intro n
  induction n with
  | zero =>
    intro g hg
    simp only [gross_income_loop, pow_zero, one_mul]
    rw [abs_sub_comm]
    exact le_max_right _ _
  | succ n ih =>
    intro g hg
    simp only [gross_income_loop]
    split
    · rename_i hconv
      rw [abs_sub_comm]
      exact le_max_of_le_left (le_of_lt hconv)
    · rename_i hconv
      have hg' : 0 ≤ g + (target - (g - calculate_tax g .regular)) := by
        have : g + (target - (g - calculate_tax g .regular)) =
            target + calculate_tax g .regular := by ring
        rw [this]
        exact add_nonneg ht (tax_nonneg g .regular)
      have hstep := ih _ hg'
      have hcontr := correction_contracts target g ht hg
      have hmul : 0.535 ^ n *
          |target - ((g + (target - (g - calculate_tax g .regular))) -
            calculate_tax (g + (target - (g - calculate_tax g .regular))) .regular)| ≤
          0.535 ^ (n + 1) * |target - (g - calculate_tax g .regular)| := by
        rw [pow_succ]
        calc 0.535 ^ n * |target - ((g + (target - (g - calculate_tax g .regular))) -
              calculate_tax (g + (target - (g - calculate_tax g .regular))) .regular)|
            ≤ 0.535 ^ n * (0.535 * |target - (g - calculate_tax g .regular)|) :=
              mul_le_mul_of_nonneg_left hcontr (by positivity)
          _ = 0.535 ^ n * 0.535 * |target - (g - calculate_tax g .regular)| := by ring
      exact hstep.trans (max_le_max (le_refl _) hmul)

/-- C1 (amended): for any net target in `[0, 500000]` the returned
gross either meets the 0.01 tolerance or misses it by at most
`0.535 ^ 10` times the initial residual at the seed `target / 0.7`;
10 corrections do not in general reach the 0.01 tolerance. -/
theorem gross_income_round_trip_residual (net_target : ℚ)
    (h0 : 0 ≤ net_target) (h1 : net_target ≤ 500000) :
    |(calculate_gross_income net_target -
        calculate_tax (calculate_gross_income net_target) .regular) - net_target| ≤
      max 0.01 (0.535 ^ 10 *
        |net_target - (net_target / 0.7 -
          calculate_tax (net_target / 0.7) .regular)|) := by
  have hseed : 0 ≤ net_target / 0.7 := by positivity
  exact gross_income_loop_bound net_target h0 10 (net_target / 0.7) hseed

/-- Witness for the amended C1 at net target 0. -/
theorem gross_income_round_trip_residual_witness :
    (0:ℚ) ≤ 0 ∧ (0:ℚ) ≤ 500000 ∧
    |(calculate_gross_income 0 -
        calculate_tax (calculate_gross_income 0) .regular) - 0| ≤
      max 0.01 (0.535 ^ 10 *
        |0 - ((0:ℚ) / 0.7 - calculate_tax ((0:ℚ) / 0.7) .regular)|) :=
  ⟨by norm_num, by norm_num,
    gross_income_round_trip_residual 0 (by norm_num) (by norm_num)⟩

/-- C1 counterexample: at `net_target = 500000` the returned gross
misses the target net by about 235 currency units, far above the claimed
0.01 tolerance: the ten additive corrections each shrink the residual
only by the factor `1 - 0.535` available in the top bracket. -/
theorem gross_income_round_trip_counterexample :
    ¬ (|(calculate_gross_income 500000 -
          calculate_tax (calculate_gross_income 500000) .regular) - 500000| ≤ 0.01) := by
  norm_num [calculate_gross_income, gross_income_loop, calculate_tax,
    calculate_bracket_tax, federal_brackets, bc_brackets, min_def, regular_ne_elig,
    abs]

/-! Section: Mortgage payment and amortization -/

/-- C8: a zero-rate mortgage payment is exactly straight-line
`P / (years * 12)`, and degenerate inputs (non-positive principal or
term) yield a zero payment at any rate. -/
theorem mortgage_payment_zero_rate_and_degenerate (P annual_rate : ℚ) (years : ℤ) :
    (0 < P → 0 < years →
      calculate_mortgage_payment P 0 years = P / ((years * 12 : ℤ) : ℚ)) ∧
    (P ≤ 0 ∨ years ≤ 0 → calculate_mortgage_payment P annual_rate years = 0) := by
  constructor
  · intro hP hy
    have hcond : ¬(P ≤ 0 ∨ years ≤ 0) := by
      push_neg
      exact ⟨hP, hy⟩
    simp only [calculate_mortgage_payment, if_neg hcond]
    norm_num
  · intro h
    simp only [calculate_mortgage_payment, if_pos h]

/-- Witness for C8 at a concrete mortgage and a concrete degenerate
input. -/
theorem mortgage_payment_zero_rate_witness :
    calculate_mortgage_payment 1200 0 10 = 1200 / ((10 * 12 : ℤ) : ℚ) ∧
    calculate_mortgage_payment (-1) 0.05 10 = 0 :=
  ⟨(mortgage_payment_zero_rate_and_degenerate 1200 0 10).1 (by norm_num) (by norm_num),
   (mortgage_payment_zero_rate_and_degenerate (-1) 0.05 10).2 (Or.inl (by norm_num))⟩

theorem mortgage_month_step_fix (annual_rate m : ℚ) :
    ∀ (n : ℕ) (d : ℚ), d ≤ 0 → (mortgage_month_step annual_rate m)^[n] d = d := by
  intro n
  induction n with
  | zero => intro d _; rfl
  | succ n ih =>
    intro d hd
    rw [Function.iterate_succ_apply]
    have : mortgage_month_step annual_rate m d = d := by
      simp [mortgage_month_step, hd]
    rw [this]
    exact ih d hd

/-- The remaining balance of the 12-month inner loop of `run_simulation`
is the 12-fold iterate of the single-month step. -/
theorem mortgage_year_remaining (annual_rate m : ℚ) :
    ∀ (n : ℕ) (d : ℚ),
      (mortgage_year annual_rate m n d).2.2 = (mortgage_month_step annual_rate m)^[n] d := by
  intro n
  induction n with
  | zero => intro d; rfl
  | succ n ih =>
    intro d
    by_cases hd : d ≤ 0
    · simp only [mortgage_year, if_pos hd]
      rw [mortgage_month_step_fix annual_rate m (n + 1) d hd]
    · simp only [mortgage_year, if_neg hd]
      rw [Function.iterate_succ_apply]
      have hstep : mortgage_month_step annual_rate m d =
          d - min d (calculate_mortgage_principal_payment d m annual_rate) := by
        simp [mortgage_month_step, hd]
      rw [hstep, ← ih]

/-- Straight-line payoff at zero rate: after `k` of `N` months the
balance is `P - k * (P / N)`. -/
theorem mortgage_iter_zero_rate (P : ℚ) (hP : 0 < P) (N : ℕ) (hN : 0 < N)
    (m : ℚ) (hm : m = P / (N : ℚ)) :
    ∀ k, k ≤ N → (mortgage_month_step 0 m)^[k] P = P - k * (P / N) := by
  have hNQ : (0:ℚ) < (N : ℚ) := by exact_mod_cast hN
  have hm0 : 0 < m := by rw [hm]; positivity
  intro k
  induction k with
  | zero => intro _; simp
  | succ k ih =>
    intro hk
    have hkN : k < N := hk
    have hkQ : (k : ℚ) + 1 ≤ (N : ℚ) := by exact_mod_cast hk
    have hPN : ((N : ℚ)) * (P / N) = P := by field_simp
    have hdiv0 : 0 ≤ P / (N : ℚ) := by positivity
    have hsteple : ((k : ℚ) + 1) * (P / N) ≤ ((N : ℚ)) * (P / N) :=
      mul_le_mul_of_nonneg_right hkQ hdiv0
    have hbal : 0 < P - k * (P / N) := by
      have hdivpos : 0 < P / (N : ℚ) := by positivity
      nlinarith [hsteple, hPN]
    rw [Function.iterate_succ_apply', ih (le_of_lt hkN)]
    have hpp : calculate_mortgage_principal_payment (P - k * (P / N)) m 0 = m := by
      have hcond : ¬(P - k * (P / N) ≤ 0 ∨ m ≤ 0) := by
        push_neg
        exact ⟨hbal, hm0⟩
      simp only [calculate_mortgage_principal_payment, if_neg hcond]
      ring
    have hmle : m ≤ P - k * (P / N) := by
      rw [hm]
      nlinarith [hsteple, hPN]
    have hmin : min (P - k * (P / N)) m = m := min_eq_right hmle
    simp only [mortgage_month_step, if_neg (not_le.mpr hbal), hpp, hmin]
    push_cast
    linarith [hm]

/-- Annuity payoff at a positive rate: after `k` of `N` months the
balance is `P * (c^N - c^k) / (c^N - 1)` where `c = 1 + rate/12`. -/
theorem mortgage_iter_pos_rate (P annual_rate : ℚ) (hP : 0 < P)
    (hr : 0 < annual_rate) (N : ℕ) (hN : 0 < N) (m : ℚ)
    (hm : m = P * (annual_rate / 12 * (1 + annual_rate / 12) ^ N) /
      ((1 + annual_rate / 12) ^ N - 1)) :
    ∀ k, k ≤ N → (mortgage_month_step annual_rate m)^[k] P =
      P * ((1 + annual_rate / 12) ^ N - (1 + annual_rate / 12) ^ k) /
        ((1 + annual_rate / 12) ^ N - 1) := by
  set q := annual_rate / 12 with hqdef
  set c := 1 + q with hcdef
  have hq : 0 < q := by rw [hqdef]; positivity
  have hc : 1 < c := by rw [hcdef]; linarith
  have hcN : 1 < c ^ N := one_lt_pow hc hN.ne'
  have hden : 0 < c ^ N - 1 := by linarith
  have hm0 : 0 < m := by
    rw [hm]
    have : 0 < c ^ N := by positivity
    positivity
  intro k
  induction k with
  | zero =>
    intro _
    rw [Function.iterate_zero_apply, pow_zero]
    field_simp
  | succ k ih =>
    intro hk
    have hkN : k < N := hk
    have hck : c ^ k < c ^ N := pow_lt_pow_right hc hkN
    have hck1 : c ^ (k + 1) ≤ c ^ N := pow_le_pow_right hc.le hk
    have hbal : 0 < P * (c ^ N - c ^ k) / (c ^ N - 1) :=
      div_pos (mul_pos hP (by linarith)) hden
    have hnext : 0 ≤ P * (c ^ N - c ^ (k + 1)) / (c ^ N - 1) :=
      div_nonneg (mul_nonneg hP.le (by linarith)) hden.le
    have hkey : P * (c ^ N - c ^ k) / (c ^ N - 1) * c - m =
        P * (c ^ N - c ^ (k + 1)) / (c ^ N - 1) := by
      rw [hm, hcdef]
      field_simp
      ring
    rw [Function.iterate_succ_apply', ih (le_of_lt hkN)]
    have hpp : calculate_mortgage_principal_payment
        (P * (c ^ N - c ^ k) / (c ^ N - 1)) m annual_rate =
        m - P * (c ^ N - c ^ k) / (c ^ N - 1) * q := by
      have hcond : ¬(P * (c ^ N - c ^ k) / (c ^ N - 1) ≤ 0 ∨ m ≤ 0) := by
        push_neg
        exact ⟨hbal, hm0⟩
      simp only [calculate_mortgage_principal_payment, if_neg hcond, ← hqdef]
    have hmin : min (P * (c ^ N - c ^ k) / (c ^ N - 1))
        (m - P * (c ^ N - c ^ k) / (c ^ N - 1) * q) =
        m - P * (c ^ N - c ^ k) / (c ^ N - 1) * q := by
      rw [min_eq_right]
      nlinarith [hkey, hnext]
    simp only [mortgage_month_step, if_neg (not_le.mpr hbal), hpp, hmin]
    nlinarith [hkey]

/-- C3: starting from the original principal, the level monthly
payment fixed at origination pays the mortgage off exactly: after
`term_years * 12` monthly steps (equivalently `term_years` replays of
the 12-month inner loop of `run_simulation`) the remaining balance is
exactly 0. -/
theorem mortgage_amortizes_exactly (P annual_rate : ℚ) (years : ℤ)
    (hP : 0 < P) (hr : 0 ≤ annual_rate) (hy : 0 < years) :
    (mortgage_month_step annual_rate
      (calculate_mortgage_payment P annual_rate years))^[years.toNat * 12] P = 0 ∧
    ((fun d => (mortgage_year annual_rate
      (calculate_mortgage_payment P annual_rate years) 12 d).2.2)^[years.toNat]) P = 0 := by
  have hcond : ¬(P ≤ 0 ∨ years ≤ 0) := by
    push_neg
    exact ⟨hP, hy⟩
  have hNnat : (years * 12).toNat = years.toNat * 12 := by omega
  have hN : 0 < years.toNat * 12 := by omega
  have hfirst : (mortgage_month_step annual_rate
      (calculate_mortgage_payment P annual_rate years))^[years.toNat * 12] P = 0 := by
    rcases eq_or_lt_of_le hr with hr0 | hr0
    · subst hr0
      have hcast : ((years.toNat * 12 : ℕ) : ℚ) = ((years * 12 : ℤ) : ℚ) := by
        have h1 : ((years.toNat * 12 : ℕ) : ℤ) = years * 12 := by omega
        exact_mod_cast h1
      have hm : calculate_mortgage_payment P 0 years =
          P / ((years.toNat * 12 : ℕ) : ℚ) := by
        simp only [calculate_mortgage_payment, if_neg hcond]
        rw [hcast]
        norm_num
      rw [hm, mortgage_iter_zero_rate P hP (years.toNat * 12) hN _ rfl
        (years.toNat * 12) (le_refl _)]
      have hy0 : ((years.toNat : ℚ)) ≠ 0 := by
        have h2 : 0 < years.toNat := by omega
        exact_mod_cast h2.ne'
      field_simp [hy0]
    · have hm : calculate_mortgage_payment P annual_rate years =
          P * (annual_rate / 12 * (1 + annual_rate / 12) ^ (years.toNat * 12)) /
            ((1 + annual_rate / 12) ^ (years.toNat * 12) - 1) := by
        simp only [calculate_mortgage_payment, if_neg hcond, hNnat]
        rw [if_neg (by positivity : ¬(annual_rate / 12 = 0))]
      rw [mortgage_iter_pos_rate P annual_rate hP hr0 (years.toNat * 12) hN _ hm
        (years.toNat * 12) (le_refl _)]
      rw [sub_self, mul_zero, zero_div]
  constructor
  · exact hfirst
  · have hcomp : ((fun d => (mortgage_year annual_rate
        (calculate_mortgage_payment P annual_rate years) 12 d).2.2)^[years.toNat]) P =
        (mortgage_month_step annual_rate
          (calculate_mortgage_payment P annual_rate years))^[12 * years.toNat] P := by
      rw [Function.iterate_mul]
      congr 1
      funext d
      rw [mortgage_year_remaining]
    rw [hcomp, mul_comm]
    exact hfirst

/-- Witness for C3 on a concrete one-year zero-rate mortgage. -/
theorem mortgage_amortizes_exactly_witness :
    (0:ℚ) < 1200 ∧ (0:ℚ) ≤ 0 ∧ (0:ℤ) < 1 ∧
    (mortgage_month_step 0 (calculate_mortgage_payment 1200 0 1))^[(1:ℤ).toNat * 12] 1200 = 0 :=
  ⟨by norm_num, by norm_num, by norm_num,
   (mortgage_amortizes_exactly 1200 0 1 (by norm_num) (by norm_num) (by norm_num)).1⟩

/-! Section: Structural facts about one simulated year -/

theorem year_step_state_years (p : SimParams) (mmp r : ℚ) (s : TrialState) :
    (year_step p mmp r s).1.years = s.years + 1 := rfl

theorem year_step_record_year (p : SimParams) (mmp r : ℚ) (s : TrialState) :
    (year_step p mmp r s).2.year = s.years + 1 := rfl

theorem year_step_record_tfsa (p : SimParams) (mmp r : ℚ) (s : TrialState) :
    (year_step p mmp r s).2.tfsa_savings = (year_step p mmp r s).1.tfsa_savings := rfl

theorem year_step_record_taxable (p : SimParams) (mmp r : ℚ) (s : TrialState) :
    (year_step p mmp r s).2.taxable_savings = (year_step p mmp r s).1.taxable_savings := rfl

theorem year_step_record_debt (p : SimParams) (mmp r : ℚ) (s : TrialState) :
    (year_step p mmp r s).2.debt = (year_step p mmp r s).1.current_debt := rfl

theorem year_step_state_income (p : SimParams) (mmp r : ℚ) (s : TrialState) :
    (year_step p mmp r s).1.yearly_income_needed =
      if 0 < s.years then s.yearly_income_needed * (1 + p.inflation_rate)
      else s.yearly_income_needed := rfl

theorem gross_zero : calculate_gross_income 0 = 0 := by
  norm_num [calculate_gross_income, gross_income_loop, calculate_tax]

theorem debt_service_loc (p : SimParams) (mmp d : ℚ)
    (hty : p.debt_type = DebtType.lineOfCredit) :
    debt_service p mmp d = (d, d * p.interest_rate, 0, d * p.interest_rate) := by
  simp [debt_service, hty]

/-! Section: C4: interest-only debt, zero returns, zero income need -/

theorem year_step_loc_zero (p : SimParams) (mmp : ℚ) (s : TrialState)
    (hty : p.debt_type = DebtType.lineOfCredit)
    (hinc : s.yearly_income_needed = 0)
    (hrate : 0 ≤ p.interest_rate)
    (hdebt : 0 ≤ s.current_debt) :
    (year_step p mmp 0 s).1.current_debt = s.current_debt ∧
    (year_step p mmp 0 s).1.yearly_income_needed = 0 := by
  have hyin : (if 0 < s.years then s.yearly_income_needed * (1 + p.inflation_rate)
      else s.yearly_income_needed) = 0 := by
    rw [hinc, zero_mul, ite_self]
  constructor
  · simp only [year_step, debt_service_loc p mmp s.current_debt hty, hinc,
      zero_mul, ite_self, mul_zero, add_zero, zero_add, gross_zero, zero_sub]
    rw [if_neg]
    · ring
    · rintro ⟨-, hpos⟩
      have t1 := tax_nonneg (s.taxable_savings * p.dividend_yield) .eligible_dividends
      have t2 := tax_nonneg (-(s.taxable_savings * p.dividend_yield)) .capital_gains
      have hdr : 0 ≤ s.current_debt * p.interest_rate := mul_nonneg hdebt hrate
      nlinarith [hpos]
  · rw [year_step_state_income, hyin]

theorem run_years_loc_zero (p : SimParams) (mmp : ℚ) (returns : ℕ → ℚ)
    (hty : p.debt_type = DebtType.lineOfCredit)
    (hrate : 0 ≤ p.interest_rate)
    (hzero : ∀ i, returns i = 0) :
    ∀ (fuel : ℕ) (s : TrialState), s.yearly_income_needed = 0 →
      (run_years p mmp returns fuel s).1.current_debt = s.current_debt ∧
      (∀ rec ∈ (run_years p mmp returns fuel s).2, rec.debt = s.current_debt) := by
  intro fuel
  induction fuel with
  | zero => intro s _; exact ⟨rfl, by simp [run_years]⟩
  | succ fuel ih =>
    intro s hinc
    by_cases hd : 0 < s.current_debt
    · have hstep := year_step_loc_zero p mmp s hty hinc hrate hd.le
      simp only [run_years, if_pos hd, hzero s.years]
      by_cases hdep : (year_step p mmp 0 s).1.tfsa_savings ≤ 0 ∧
          (year_step p mmp 0 s).1.taxable_savings ≤ 0
      · rw [if_pos hdep]
        refine ⟨hstep.1, ?_⟩
        intro rec hrec
        rw [List.mem_singleton] at hrec
        rw [hrec, year_step_record_debt, hstep.1]
      · rw [if_neg hdep]
        have hrest := ih (year_step p mmp 0 s).1 hstep.2
        refine ⟨hrest.1.trans hstep.1, ?_⟩
        intro rec hrec
        rw [List.mem_cons] at hrec
        rcases hrec with rfl | hrec
        · rw [year_step_record_debt, hstep.1]
        · rw [hrest.2 rec hrec, hstep.1]
    · have hout : run_years p mmp returns (fuel + 1) s = (s, []) := by
        simp [run_years, hd]
      rw [hout]
      exact ⟨rfl, fun rec hrec => absurd hrec (by simp)⟩

/-- C4: with an interest-only debt (Line of Credit), a degenerate
zero return draw (`min_return = max_return = 0`) and no income need,
the debt balance recorded in every simulated year — and the final debt —
equals the initial debt, over any year cap: no principal is ever paid
absent surplus. -/
theorem loc_zero_returns_debt_unchanged (p : SimParams) (returns : ℕ → ℚ)
    (hty : p.debt_type = DebtType.lineOfCredit)
    (hmin : p.min_return = 0) (hmax : p.max_return = 0)
    (hinc : p.monthly_income_needed = 0)
    (hrate : 0 ≤ p.interest_rate)
    (hret : ∀ i, p.min_return ≤ returns i ∧ returns i ≤ p.max_return) :
    (run_trial p returns).final_debt = p.initial_debt ∧
    ∀ rec ∈ (run_trial p returns).annual_data, rec.debt = p.initial_debt := by
  have hzero : ∀ i, returns i = 0 := by
    intro i
    have h := hret i
    rw [hmin] at h
    rw [hmax] at h
    exact le_antisymm h.2 h.1
  have hinit : (initial_state p).yearly_income_needed = 0 := by
    simp [initial_state, hinc]
  have h := run_years_loc_zero p (trial_monthly_mortgage_payment p) returns hty hrate
    hzero p.max_years (initial_state p) hinit
  exact h

/-- Witness for C4 on the concrete sample parameter set. -/
theorem loc_zero_returns_debt_unchanged_witness :
    (run_trial sample_params (fun _ => 0)).final_debt = sample_params.initial_debt ∧
    ∀ rec ∈ (run_trial sample_params (fun _ => 0)).annual_data,
      rec.debt = sample_params.initial_debt :=
  loc_zero_returns_debt_unchanged sample_params (fun _ => 0) rfl rfl rfl rfl
    (by norm_num [sample_params]) (fun _ => ⟨le_refl 0, le_refl 0⟩)

/-! Section: C6: the result collection -/

theorem foldl_append_eq_map {α β : Type} (f : α → β) :
    ∀ (l : List α) (acc : List β),
      l.foldl (fun acc x => acc ++ [f x]) acc = acc ++ l.map f := by
  intro l
  induction l with
  | nil => intro acc; simp
  | cons x xs ih =>
    intro acc
    simp only [List.foldl_cons, List.map_cons, ih, List.append_assoc,
      List.singleton_append]

theorem run_simulation_eq_map (p : SimParams) (returns : ℕ → ℕ → ℚ) :
    run_simulation p returns =
      (List.range p.num_simulations).map (fun sim => run_trial p (returns sim)) := by
  unfold run_simulation
  rw [foldl_append_eq_map]
  simp

/-- C6: run_simulation returns exactly `num_simulations` trial
results, and the entry at position `i` is trial `i`'s result: insertion
order equals trial index order. -/
theorem simulation_count_and_order (p : SimParams) (returns : ℕ → ℕ → ℚ) :
    (run_simulation p returns).length = p.num_simulations ∧
    ∀ i, i < p.num_simulations →
      (run_simulation p returns).get? i = some (run_trial p (returns i)) := by
  rw [run_simulation_eq_map]
  constructor
  · simp
  · intro i hi
    rw [List.get?_map, List.get?_range hi]
    rfl

/-- Witness for C6 on the concrete sample parameter set. -/
theorem simulation_count_and_order_witness :
    (run_simulation sample_params (fun _ _ => 0)).length = sample_params.num_simulations ∧
    (run_simulation sample_params (fun _ _ => 0)).get? 0 =
      some (run_trial sample_params ((fun _ _ => (0:ℚ)) 0)) :=
  ⟨(simulation_count_and_order sample_params (fun _ _ => 0)).1,
   (simulation_count_and_order sample_params (fun _ _ => 0)).2 0 (by norm_num [sample_params])⟩

/-! Section: The three exits of the yearly loop, as rewrite equations -/

theorem run_years_done (p : SimParams) (mmp : ℚ) (returns : ℕ → ℚ) (fuel : ℕ)
    (s : TrialState) (hd : ¬ 0 < s.current_debt) :
    run_years p mmp returns (fuel + 1) s = (s, []) := by
  simp [run_years, hd]

theorem run_years_stop_fst (p : SimParams) (mmp : ℚ) (returns : ℕ → ℚ) (fuel : ℕ)
    (s : TrialState) (hd : 0 < s.current_debt)
    (hdep : (year_step p mmp (returns s.years) s).1.tfsa_savings ≤ 0 ∧
      (year_step p mmp (returns s.years) s).1.taxable_savings ≤ 0) :
    (run_years p mmp returns (fuel + 1) s).1 =
      (year_step p mmp (returns s.years) s).1 := by
  simp only [run_years, if_pos hd, if_pos hdep]

theorem run_years_stop_snd (p : SimParams) (mmp : ℚ) (returns : ℕ → ℚ) (fuel : ℕ)
    (s : TrialState) (hd : 0 < s.current_debt)
    (hdep : (year_step p mmp (returns s.years) s).1.tfsa_savings ≤ 0 ∧
      (year_step p mmp (returns s.years) s).1.taxable_savings ≤ 0) :
    (run_years p mmp returns (fuel + 1) s).2 =
      [(year_step p mmp (returns s.years) s).2] := by
  simp only [run_years, if_pos hd, if_pos hdep]

theorem run_years_cont_fst (p : SimParams) (mmp : ℚ) (returns : ℕ → ℚ) (fuel : ℕ)
    (s : TrialState) (hd : 0 < s.current_debt)
    (hdep : ¬ ((year_step p mmp (returns s.years) s).1.tfsa_savings ≤ 0 ∧
      (year_step p mmp (returns s.years) s).1.taxable_savings ≤ 0)) :
    (run_years p mmp returns (fuel + 1) s).1 =
      (run_years p mmp returns fuel (year_step p mmp (returns s.years) s).1).1 := by
  simp only [run_years, if_pos hd, if_neg hdep]

theorem run_years_cont_snd (p : SimParams) (mmp : ℚ) (returns : ℕ → ℚ) (fuel : ℕ)
    (s : TrialState) (hd : 0 < s.current_debt)
    (hdep : ¬ ((year_step p mmp (returns s.years) s).1.tfsa_savings ≤ 0 ∧
      (year_step p mmp (returns s.years) s).1.taxable_savings ≤ 0)) :
    (run_years p mmp returns (fuel + 1) s).2 =
      (year_step p mmp (returns s.years) s).2 ::
        (run_years p mmp returns fuel (year_step p mmp (returns s.years) s).1).2 := by
  simp only [run_years, if_pos hd, if_neg hdep]

/-! Section: C5: depletion of both savings balances ends the trial -/

theorem run_years_depletion_aux (p : SimParams) (mmp : ℚ) (returns : ℕ → ℚ) :
    ∀ (fuel : ℕ) (s : TrialState),
      (run_years p mmp returns fuel s).1.years ≤ s.years + fuel ∧
      ∀ rec ∈ (run_years p mmp returns fuel s).2,
        rec.tfsa_savings ≤ 0 → rec.taxable_savings ≤ 0 →
          rec.year = (run_years p mmp returns fuel s).1.years := by
  intro fuel
  induction fuel with
  | zero =>
    intro s
    refine ⟨?_, fun rec hrec _ _ => absurd hrec (by simp [run_years])⟩
    show s.years ≤ s.years + 0
    omega
  | succ fuel ih =>
    intro s
    by_cases hd : 0 < s.current_debt
    · by_cases hdep : (year_step p mmp (returns s.years) s).1.tfsa_savings ≤ 0 ∧
          (year_step p mmp (returns s.years) s).1.taxable_savings ≤ 0
      · rw [run_years_stop_fst p mmp returns fuel s hd hdep,
          run_years_stop_snd p mmp returns fuel s hd hdep]
        constructor
        · rw [year_step_state_years]
          omega
        · intro rec hrec _ _
          rw [List.mem_singleton] at hrec
          rw [hrec, year_step_record_year, year_step_state_years]
      · rw [run_years_cont_fst p mmp returns fuel s hd hdep,
          run_years_cont_snd p mmp returns fuel s hd hdep]
        have hrest := ih (year_step p mmp (returns s.years) s).1
        constructor
        · have h1 := hrest.1
          rw [year_step_state_years] at h1
          omega
        · intro rec hrec h1 h2
          rw [List.mem_cons] at hrec
          rcases hrec with rfl | hrec
          · rw [year_step_record_tfsa] at h1
            rw [year_step_record_taxable] at h2
            exact absurd ⟨h1, h2⟩ hdep
          · exact hrest.2 rec hrec h1 h2
    · rw [run_years_done p mmp returns fuel s hd]
      refine ⟨?_, fun rec hrec _ _ => absurd hrec (by simp)⟩
      show s.years ≤ s.years + (fuel + 1)
      omega

/-- C5 (amended): if a simulated year ends with both savings
balances non-positive, the trial stops at that very year (the record's
year index is the trial's final year count), the trial never exceeds
`max_years`, and its result is still present in the result collection.
When the depleting year is before the cap this gives `years <
max_years`; when depletion happens exactly in the cap year the trial
ends with `years = max_years`, not strictly below it. -/
theorem depletion_ends_trial (p : SimParams) (returns : ℕ → ℕ → ℚ) (i : ℕ)
    (hi : i < p.num_simulations) :
    run_trial p (returns i) ∈ run_simulation p returns ∧
    (run_trial p (returns i)).years ≤ p.max_years ∧
    ∀ rec ∈ (run_trial p (returns i)).annual_data,
      rec.tfsa_savings ≤ 0 → rec.taxable_savings ≤ 0 →
        rec.year = (run_trial p (returns i)).years := by
  refine ⟨?_, ?_, ?_⟩
  · rw [run_simulation_eq_map]
    exact List.mem_map.mpr ⟨i, List.mem_range.mpr hi, rfl⟩
  · have h1 := (run_years_depletion_aux p (trial_monthly_mortgage_payment p)
      (returns i) p.max_years (initial_state p)).1
    have hys : (initial_state p).years = 0 := rfl
    rw [hys] at h1
    have h2 : (run_trial p (returns i)).years =
        (run_years p (trial_monthly_mortgage_payment p) (returns i)
          p.max_years (initial_state p)).1.years := rfl
    rw [h2]
    omega
  · intro rec hrec h1 h2
    exact (run_years_depletion_aux p (trial_monthly_mortgage_payment p)
      (returns i) p.max_years (initial_state p)).2 rec hrec h1 h2

/-- Witness for the amended C5 on the concrete sample parameter set. -/
theorem depletion_ends_trial_witness :
    run_trial sample_params ((fun _ _ => (0:ℚ)) 0) ∈
      run_simulation sample_params (fun _ _ => 0) ∧
    (run_trial sample_params ((fun _ _ => (0:ℚ)) 0)).years ≤ sample_params.max_years ∧
    ∀ rec ∈ (run_trial sample_params ((fun _ _ => (0:ℚ)) 0)).annual_data,
      rec.tfsa_savings ≤ 0 → rec.taxable_savings ≤ 0 →
        rec.year = (run_trial sample_params ((fun _ _ => (0:ℚ)) 0)).years :=
  depletion_ends_trial sample_params (fun _ _ => 0) 0 (by norm_num [sample_params])

/-- C5 counterexample: with a one-year cap and zero savings, the
single simulated year ends with both balances at 0 (≤ 0), so the trial
stops by depletion — but with `years = max_years = 1`, not
`years < max_years` as the claim requires. -/
theorem depletion_at_cap_counterexample :
    (run_trial sample_params (fun _ => 0)).years = sample_params.max_years ∧
    (run_trial sample_params (fun _ => 0)).annual_data.map
      AnnualRecord.tfsa_savings = [0] ∧
    (run_trial sample_params (fun _ => 0)).annual_data.map
      AnnualRecord.taxable_savings = [0] ∧
    ¬ ((run_trial sample_params (fun _ => 0)).years < sample_params.max_years) := by
  norm_num [run_trial, run_years, year_step, initial_state, sample_params,
    debt_service, trial_monthly_mortgage_payment, calculate_gross_income,
    gross_income_loop, calculate_tax]

/-! Section: C10: the debt balance never increases and never goes negative -/

theorem mortgage_month_step_le (annual_rate m d : ℚ) (hr : 0 ≤ annual_rate)
    (hd : 0 ≤ d) (hm : m ≤ 0 ∨ d * (annual_rate / 12) ≤ m) :
    0 ≤ mortgage_month_step annual_rate m d ∧
    mortgage_month_step annual_rate m d ≤ d := by
  by_cases hd0 : d ≤ 0
  · rw [show mortgage_month_step annual_rate m d = d from by
      simp [mortgage_month_step, hd0]]
    exact ⟨hd, le_rfl⟩
  · push_neg at hd0
    by_cases hm0 : m ≤ 0
    · have hpp : calculate_mortgage_principal_payment d m annual_rate = 0 := by
        simp [calculate_mortgage_principal_payment, hm0]
      rw [show mortgage_month_step annual_rate m d = d from by
        simp [mortgage_month_step, if_neg (not_le.mpr hd0), hpp, min_eq_right hd]]
      exact ⟨hd, le_rfl⟩
    · push_neg at hm0
      have hdm : d * (annual_rate / 12) ≤ m := by
        rcases hm with h | h
        · exact absurd hm0 (not_lt.mpr h)
        · exact h
      have hcond : ¬(d ≤ 0 ∨ m ≤ 0) := by
        push_neg
        exact ⟨hd0, hm0⟩
      have hpp : calculate_mortgage_principal_payment d m annual_rate =
          m - d * (annual_rate / 12) := by
        simp only [calculate_mortgage_principal_payment, if_neg hcond]
      have hstep : mortgage_month_step annual_rate m d =
          d - min d (m - d * (annual_rate / 12)) := by
        simp only [mortgage_month_step, if_neg (not_le.mpr hd0), hpp]
      rw [hstep]
      have h1 : 0 ≤ min d (m - d * (annual_rate / 12)) :=
        le_min hd (by linarith)
      have h2 : min d (m - d * (annual_rate / 12)) ≤ d := min_le_left _ _
      constructor
      · linarith
      · linarith

theorem mortgage_month_iter_le (annual_rate m : ℚ) (hr : 0 ≤ annual_rate) :
    ∀ (n : ℕ) (d : ℚ), 0 ≤ d → (m ≤ 0 ∨ d * (annual_rate / 12) ≤ m) →
      0 ≤ (mortgage_month_step annual_rate m)^[n] d ∧
      (mortgage_month_step annual_rate m)^[n] d ≤ d := by
  intro n
  induction n with
  | zero => intro d hd _; exact ⟨hd, le_rfl⟩
  | succ n ih =>
    intro d hd hm
    rw [Function.iterate_succ_apply]
    have hstep := mortgage_month_step_le annual_rate m d hr hd hm
    have hm' : m ≤ 0 ∨
        mortgage_month_step annual_rate m d * (annual_rate / 12) ≤ m := by
      rcases hm with h | h
      · exact Or.inl h
      · right
        have hq : 0 ≤ annual_rate / 12 := by positivity
        exact (mul_le_mul_of_nonneg_right hstep.2 hq).trans h
    have hrest := ih (mortgage_month_step annual_rate m d) hstep.1 hm'
    exact ⟨hrest.1, hrest.2.trans hstep.2⟩

theorem debt_service_fst_le (p : SimParams) (mmp d : ℚ)
    (hr : 0 ≤ p.interest_rate) (hd : 0 ≤ d)
    (hm : mmp ≤ 0 ∨ d * (p.interest_rate / 12) ≤ mmp) :
    0 ≤ (debt_service p mmp d).1 ∧ (debt_service p mmp d).1 ≤ d := by
  cases hty : p.debt_type with
  | lineOfCredit =>
    rw [debt_service_loc p mmp d hty]
    exact ⟨hd, le_rfl⟩
  | mortgage =>
    have heq : (debt_service p mmp d).1 =
        (mortgage_year p.interest_rate mmp 12 d).2.2 := by
      simp [debt_service, hty]
    rw [heq, mortgage_year_remaining]
    exact mortgage_month_iter_le p.interest_rate mmp hr 12 d hd hm

theorem extra_payment_bounds {D X S : ℚ} (c : Prop) [Decidable c]
    (hc : c → 0 < X) (hD0 : 0 ≤ D) (hDS : D ≤ S) :
    0 ≤ D - (if c then min D X else 0) ∧ D - (if c then min D X else 0) ≤ S := by
  split
  · rename_i h
    have hx := (hc h).le
    have h1 : min D X ≤ D := min_le_left _ _
    have h2 : 0 ≤ min D X := le_min hD0 hx
    exact ⟨by linarith, by linarith⟩
  · rw [sub_zero]
    exact ⟨hD0, hDS⟩

theorem year_step_debt_le (p : SimParams) (mmp r : ℚ) (s : TrialState)
    (hr : 0 ≤ p.interest_rate) (hd : 0 ≤ s.current_debt)
    (hm : mmp ≤ 0 ∨ s.current_debt * (p.interest_rate / 12) ≤ mmp) :
    0 ≤ (year_step p mmp r s).1.current_debt ∧
    (year_step p mmp r s).1.current_debt ≤ s.current_debt := by
  have hds := debt_service_fst_le p mmp s.current_debt hr hd hm
  simp only [year_step]
  exact extra_payment_bounds _ (fun h => h.2) hds.1 hds.2

theorem calculate_mortgage_payment_ge (P annual_rate : ℚ) (years : ℤ)
    (hr : 0 ≤ annual_rate) :
    calculate_mortgage_payment P annual_rate years ≤ 0 ∨
    P * (annual_rate / 12) ≤ calculate_mortgage_payment P annual_rate years := by
  by_cases hcond : P ≤ 0 ∨ years ≤ 0
  · left
    rw [show calculate_mortgage_payment P annual_rate years = 0 from by
      simp [calculate_mortgage_payment, hcond]]
  · right
    push_neg at hcond
    obtain ⟨hP, hy⟩ := hcond
    have hcond' : ¬(P ≤ 0 ∨ years ≤ 0) := by
      push_neg
      exact ⟨hP, hy⟩
    simp only [calculate_mortgage_payment, if_neg hcond']
    by_cases hq : annual_rate / 12 = 0
    · rw [if_pos hq, hq, mul_zero]
      have hcast : (0:ℚ) < ((years * 12 : ℤ) : ℚ) := by
        exact_mod_cast (by omega : (0:ℤ) < years * 12)
      positivity
    · rw [if_neg hq]
      have hq' : 0 < annual_rate / 12 := lt_of_le_of_ne (by positivity) (Ne.symm hq)
      have hc : (1:ℚ) < 1 + annual_rate / 12 := by linarith
      have hN : (years * 12).toNat ≠ 0 := by omega
      have hcN : 1 < (1 + annual_rate / 12) ^ (years * 12).toNat :=
        one_lt_pow₀ hc hN
      rw [le_div_iff₀ (by linarith)]
      have hPq : 0 < P * (annual_rate / 12) := mul_pos hP hq'
      nlinarith

theorem trial_mmp_spec (p : SimParams) (hr : 0 ≤ p.interest_rate) :
    trial_monthly_mortgage_payment p ≤ 0 ∨
    p.initial_debt * (p.interest_rate / 12) ≤ trial_monthly_mortgage_payment p := by
  unfold trial_monthly_mortgage_payment
  split
  · exact calculate_mortgage_payment_ge p.initial_debt p.interest_rate
      p.amortization_years hr
  · exact Or.inl le_rfl

theorem run_years_debt (p : SimParams) (mmp : ℚ) (returns : ℕ → ℚ)
    (hr : 0 ≤ p.interest_rate) :
    ∀ (fuel : ℕ) (s : TrialState), 0 ≤ s.current_debt →
      (mmp ≤ 0 ∨ s.current_debt * (p.interest_rate / 12) ≤ mmp) →
      (0 ≤ (run_years p mmp returns fuel s).1.current_debt ∧
       (run_years p mmp returns fuel s).1.current_debt ≤ s.current_debt) ∧
      (∀ rec ∈ (run_years p mmp returns fuel s).2,
        0 ≤ rec.debt ∧ rec.debt ≤ s.current_debt) ∧
      List.Chain' (fun a b => b.debt ≤ a.debt) (run_years p mmp returns fuel s).2 := by
  intro fuel
  induction fuel with
  | zero =>
    intro s hd _
    refine ⟨⟨hd, le_rfl⟩, fun rec hrec => absurd hrec (by simp [run_years]), ?_⟩
    show List.Chain' _ ([] : List AnnualRecord)
    exact List.chain'_nil
  | succ fuel ih =>
    intro s hd hm
    by_cases hdpos : 0 < s.current_debt
    · have hstep := year_step_debt_le p mmp (returns s.years) s hr hd hm
      have hm' : mmp ≤ 0 ∨
          (year_step p mmp (returns s.years) s).1.current_debt *
            (p.interest_rate / 12) ≤ mmp := by
        rcases hm with h | h
        · exact Or.inl h
        · right
          have hq : 0 ≤ p.interest_rate / 12 := by positivity
          exact (mul_le_mul_of_nonneg_right hstep.2 hq).trans h
      by_cases hdep : (year_step p mmp (returns s.years) s).1.tfsa_savings ≤ 0 ∧
          (year_step p mmp (returns s.years) s).1.taxable_savings ≤ 0
      · rw [run_years_stop_fst p mmp returns fuel s hdpos hdep,
          run_years_stop_snd p mmp returns fuel s hdpos hdep]
        refine ⟨hstep, ?_, List.chain'_singleton _⟩
        intro rec hrec
        rw [List.mem_singleton] at hrec
        rw [hrec, year_step_record_debt]
        exact hstep
      · rw [run_years_cont_fst p mmp returns fuel s hdpos hdep,
          run_years_cont_snd p mmp returns fuel s hdpos hdep]
        have hrest := ih (year_step p mmp (returns s.years) s).1 hstep.1 hm'
        refine ⟨⟨hrest.1.1, hrest.1.2.trans hstep.2⟩, ?_, ?_⟩
        · intro rec hrec
          rw [List.mem_cons] at hrec
          rcases hrec with rfl | hrec
          · rw [year_step_record_debt]
            exact hstep
          · have h2 := hrest.2.1 rec hrec
            exact ⟨h2.1, h2.2.trans hstep.2⟩
        · rw [List.chain'_cons']
          refine ⟨?_, hrest.2.2⟩
          intro h hh
          have hmem := List.mem_of_mem_head? hh
          rw [year_step_record_debt]
          exact (hrest.2.1 h hmem).2
    · rw [run_years_done p mmp returns fuel s hdpos]
      exact ⟨⟨hd, le_rfl⟩, fun rec hrec => absurd hrec (by simp), List.chain'_nil⟩

/-- C10: with a non-negative initial debt and interest rate, every
trial's debt balance is non-increasing from each recorded year to the
next and never negative; consequently the success test
`final_debt ≤ 0` is only ever attained with `final_debt = 0`. -/
theorem debt_nonincreasing_nonnegative (p : SimParams) (returns : ℕ → ℚ)
    (hd : 0 ≤ p.initial_debt) (hr : 0 ≤ p.interest_rate) :
    0 ≤ (run_trial p returns).final_debt ∧
    (∀ rec ∈ (run_trial p returns).annual_data, 0 ≤ rec.debt) ∧
    List.Chain' (fun a b => b.debt ≤ a.debt) (run_trial p returns).annual_data ∧
    ((run_trial p returns).final_debt ≤ 0 → (run_trial p returns).final_debt = 0) := by
  have hm := trial_mmp_spec p hr
  have hd0 : 0 ≤ (initial_state p).current_debt := hd
  have hm0 : trial_monthly_mortgage_payment p ≤ 0 ∨
      (initial_state p).current_debt * (p.interest_rate / 12) ≤
        trial_monthly_mortgage_payment p := hm
  have h := run_years_debt p (trial_monthly_mortgage_payment p) returns hr
    p.max_years (initial_state p) hd0 hm0
  exact ⟨h.1.1, fun rec hrec => (h.2.1 rec hrec).1, h.2.2,
    fun hle => le_antisymm hle h.1.1⟩

/-- Witness for C10 on the concrete sample parameter set. -/
theorem debt_nonincreasing_nonnegative_witness :
    0 ≤ (run_trial sample_params (fun _ => 0)).final_debt ∧
    (∀ rec ∈ (run_trial sample_params (fun _ => 0)).annual_data, 0 ≤ rec.debt) ∧
    List.Chain' (fun a b => b.debt ≤ a.debt)
      (run_trial sample_params (fun _ => 0)).annual_data ∧
    ((run_trial sample_params (fun _ => 0)).final_debt ≤ 0 →
      (run_trial sample_params (fun _ => 0)).final_debt = 0) :=
  debt_nonincreasing_nonnegative sample_params (fun _ => 0)
    (by norm_num [sample_params]) (by norm_num [sample_params])

/-! Section: C9: the TFSA growth simulation (modelled from the spec) -/

theorem run_tfsa_years_spec (contribution : ℚ) (returns : ℕ → ℚ) :
    ∀ (fuel year : ℕ) (bal : ℚ),
      (run_tfsa_years contribution returns year fuel bal).2.length = fuel ∧
      (run_tfsa_years contribution returns year fuel bal).1 =
        (List.range' year fuel).foldl (tfsa_fold_step contribution returns) bal := by
  intro fuel
  induction fuel with
  | zero => intro year bal; exact ⟨rfl, rfl⟩
  | succ fuel ih =>
    intro year bal
    have h1 : (run_tfsa_years contribution returns year (fuel + 1) bal).1 =
        (run_tfsa_years contribution returns (year + 1) fuel
          (bal + bal * returns year + contribution)).1 := rfl
    have h2 : (run_tfsa_years contribution returns year (fuel + 1) bal).2 =
        { year := year + 1, tfsa_balance := bal + bal * returns year + contribution,
          annual_return := returns year } ::
          (run_tfsa_years contribution returns (year + 1) fuel
            (bal + bal * returns year + contribution)).2 := rfl
    constructor
    · rw [h2, List.length_cons, (ih (year + 1) (bal + bal * returns year + contribution)).1]
    · rw [h1, (ih (year + 1) (bal + bal * returns year + contribution)).2,
        List.range'_succ, List.foldl_cons]
      rfl

/-- C9 (modelled from the spec: `run_tfsa_simulation` is called at
`app.py` line 286 but not defined in the provided sources.)  Each
savings-growth trial runs for exactly `max_years` years with no early
termination — its annual history has exactly `max_years` records — and
each year applies only the drawn return plus the contribution to the
tax-sheltered balance, so the final balance is the year-by-year fold of
that step; the simulation returns one such trial per requested run. -/
theorem run_tfsa_trial_spec (tfsa_savings annual_tfsa_contribution : ℚ)
    (num_simulations max_years : ℕ) (trial_returns : ℕ → ℚ)
    (returns : ℕ → ℕ → ℚ) :
    (run_tfsa_trial tfsa_savings annual_tfsa_contribution max_years
      trial_returns).annual_data.length = max_years ∧
    (run_tfsa_trial tfsa_savings annual_tfsa_contribution max_years
      trial_returns).tfsa_balance =
      (List.range max_years).foldl
        (tfsa_fold_step annual_tfsa_contribution trial_returns) tfsa_savings ∧
    (run_tfsa_simulation tfsa_savings annual_tfsa_contribution num_simulations
      max_years returns).length = num_simulations := by
  have h := run_tfsa_years_spec annual_tfsa_contribution trial_returns max_years 0
    tfsa_savings
  refine ⟨h.1, ?_, ?_⟩
  · have hb : (run_tfsa_trial tfsa_savings annual_tfsa_contribution max_years
        trial_returns).tfsa_balance =
        (run_tfsa_years annual_tfsa_contribution trial_returns 0 max_years
          tfsa_savings).1 := rfl
    rw [hb, h.2, List.range_eq_range']
  · unfold run_tfsa_simulation
    rw [foldl_append_eq_map]
    simp

end DebtSim
